import Mathlib

/-!
Verification development for `src/Engine/FormulaEvaluator.ts`, the
recursive-descent formula evaluator of this repository.

Modelling choices, kept close to the source:

* JavaScript numbers are modelled by `JNum`: a finite rational, positive or
  negative infinity, or NaN.  Finite arithmetic is exact rational arithmetic
  (the source's only numeric comparison, `value2 === 0`, is unaffected by
  floating-point rounding on the integer-valued inputs the spec discusses).
  `-0` and `0` are identified, as JavaScript's `===` does.
* The class's mutable fields are modelled by explicit state passing.  During
  one parse only `_currentTokenIndex`, `_errorOccurred` and `_errorMessage`
  change and are read (`ParseState`); `_currentFormula` is fixed for the whole
  call and is a plain parameter, and `_lastResult` is write-only inside the
  parse (every write at line 91 of the source is immediately followed by a
  return, and line 43 overwrites it before any read), so it is reinstated
  only at the `evaluate` level (`FormulaEvaluator` instance state).
* The mutually recursive parser is written as one fueled step function `run`
  over a `Mode` tag, structurally recursive on the fuel so that it evaluates
  inside the kernel; the named wrappers `evaluateExpression`,
  `evaluateTerm`, `evaluateFactor` correspond to the source's methods.
  Fuel `3 * formula.length + 3` is always enough (proved below): fuel is
  consumed once per grammar level between token consumptions.
-/

/-- A JavaScript number: a finite (exact) rational, an infinity, or NaN. -/
inductive JNum where
  | fin (q : ℚ)
  | posInf
  | negInf
  | nan
deriving DecidableEq

/-- Negation of a JavaScript number. -/
def JNum.neg : JNum → JNum
  | .fin q => .fin (mkRat (-q.num) q.den)
  | .posInf => .negInf
  | .negInf => .posInf
  | .nan => .nan

/-- JavaScript `+` on numbers (IEEE-754 special cases; finite case exact). -/
def JNum.add : JNum → JNum → JNum
  | .nan, _ => .nan
  | _, .nan => .nan
  | .fin a, .fin b => .fin (mkRat (a.num * b.den + b.num * a.den) (a.den * b.den))
  | .posInf, .negInf => .nan
  | .negInf, .posInf => .nan
  | .posInf, _ => .posInf
  | _, .posInf => .posInf
  | .negInf, _ => .negInf
  | _, .negInf => .negInf

/-- JavaScript `-` on numbers, as addition of the negation. -/
def JNum.sub (a b : JNum) : JNum := a.add b.neg

/-- JavaScript `*` on numbers (IEEE-754 special cases; finite case exact). -/
def JNum.mul : JNum → JNum → JNum
  | .nan, _ => .nan
  | _, .nan => .nan
  | .fin a, .fin b => .fin (mkRat (a.num * b.num) (a.den * b.den))
  | .posInf, .posInf => .posInf
  | .posInf, .negInf => .negInf
  | .negInf, .posInf => .negInf
  | .negInf, .negInf => .posInf
  | .posInf, .fin b => if b.num = 0 then .nan else if 0 < b.num then .posInf else .negInf
  | .fin a, .posInf => if a.num = 0 then .nan else if 0 < a.num then .posInf else .negInf
  | .negInf, .fin b => if b.num = 0 then .nan else if 0 < b.num then .negInf else .posInf
  | .fin a, .negInf => if a.num = 0 then .nan else if 0 < a.num then .negInf else .posInf

/-- JavaScript `/` on numbers.  The evaluator only divides after checking the
divisor against `0`, so the finite-by-zero case is never reached there. -/
def JNum.div : JNum → JNum → JNum
  | .nan, _ => .nan
  | _, .nan => .nan
  | .fin a, .fin b =>
      if 0 ≤ b.num then .fin (mkRat (a.num * b.den) (a.den * b.num.toNat))
      else .fin (mkRat (-(a.num * b.den)) (a.den * (-b.num).toNat))
  | .fin _, .posInf => .fin 0
  | .fin _, .negInf => .fin 0
  | .posInf, .fin b => if 0 ≤ b.num then .posInf else .negInf
  | .negInf, .fin b => if 0 ≤ b.num then .negInf else .posInf
  | .posInf, _ => .nan
  | .negInf, _ => .nan

/-- Decimal digit test. -/
def isDigitChar (c : Char) : Bool := ('0' ≤ c) && (c ≤ '9')

/-- Whitespace as trimmed by JavaScript string-to-number conversion. -/
def isSpaceChar (c : Char) : Bool := (c = ' ') || (c = '\t') || (c = '\n') || (c = '\r')

/-- Numeric value of a digit string. -/
def digitsVal (cs : List Char) : ℕ := cs.foldl (fun n c => 10 * n + (c.toNat - 48)) 0

/-- Unsigned decimal literal: digits with an optional fractional part
(`12`, `12.5`, `12.`, `.5`).  Returns `none` when the text is not such a
literal (the hexadecimal and exponent forms JavaScript also accepts are not
needed by any token the repository or spec discusses). -/
def parseDecimal (cs : List Char) : Option ℚ :=
  let intPart := cs.takeWhile isDigitChar
  let rest := cs.dropWhile isDigitChar
  match rest with
  | [] => if intPart.isEmpty then none else some (digitsVal intPart)
  | '.' :: frac =>
      if frac.all isDigitChar then
        if intPart.isEmpty && frac.isEmpty then none
        else some (mkRat (digitsVal intPart * 10 ^ frac.length + digitsVal frac) (10 ^ frac.length))
      else none
  | _ => none

/-- JavaScript `Number(string)`: the empty (or all-whitespace) string converts
to `0`, an optionally signed decimal literal or `Infinity` converts to its
value, anything else to NaN. -/
def jsNumber (s : String) : JNum :=
  let t := (s.data.dropWhile isSpaceChar).reverse.dropWhile isSpaceChar |>.reverse
  match t with
  | [] => .fin 0
  | '+' :: cs => jsNumberUnsigned cs false
  | '-' :: cs => jsNumberUnsigned cs true
  | cs => jsNumberUnsigned cs false
where
  /-- Value of the text after an optional sign. -/
  jsNumberUnsigned (cs : List Char) (negate : Bool) : JNum :=
    if cs = ['I','n','f','i','n','i','t','y'] then
      if negate then .negInf else .posInf
    else
      match parseDecimal cs with
      | none => .nan
      | some q => if negate then .fin (mkRat (-q.num) q.den) else .fin q

/-- `isNumber` from the source: `!isNaN(Number(token))`. -/
def isNumber (token : String) : Bool := jsNumber token ≠ JNum.nan

/-- Modelled from the spec: `Cell.isValidCellLabel` lives in `Cell.ts`, which
is not under `src/`; the spec describes the label convention as one or more
letters followed by one or more digits. -/
def isValidCellLabel (s : String) : Bool :=
  let letters := s.data.takeWhile (fun c => (('A' ≤ c) && (c ≤ 'Z')) || (('a' ≤ c) && (c ≤ 'z')))
  let rest := s.data.dropWhile (fun c => (('A' ≤ c) && (c ≤ 'Z')) || (('a' ≤ c) && (c ≤ 'z')))
  (!letters.isEmpty) && (!rest.isEmpty) && rest.all isDigitChar

/-- `isCellReference` from the source, delegating to the label predicate. -/
def isCellReference (token : String) : Bool := isValidCellLabel token

/-- Modelled from the spec: the error strings of `GlobalDefinitions.ts` (not
under `src/`) are stable, pairwise distinct, non-empty identifiers; their
exact text is irrelevant to every claim. -/
def ErrorMessages.emptyFormula : String := "EmptyFormula"

/-- Modelled from the spec: grammar-mismatch error identifier. -/
def ErrorMessages.invalidFormula : String := "InvalidFormula"

/-- Modelled from the spec: division-by-zero error identifier. -/
def ErrorMessages.divideByZero : String := "DivideByZero"

/-- Modelled from the spec: empty-referenced-cell error identifier. -/
def ErrorMessages.invalidCell : String := "InvalidCell"

/-- A stored cell as the evaluator reads it: `getFormula()`, `getValue()`,
`getError()`.  Modelled from the spec's store interface
`getByLabel(label) -> (formula, value, error)`; `Cell.ts` is not under
`src/`. -/
structure Cell where
  formula : List String
  value : JNum
  error : String
deriving DecidableEq

/-- The read-only sheet memory: a total map from labels to cells, standing
for `SheetMemory.getCellByLabel` (not under `src/`; the evaluator only ever
reads through it). -/
def Store : Type := String → Cell

/-- `getCellValue` from the source: propagate a stored error (unless it is
the empty-formula marker), flag an empty referenced cell as `invalidCell`,
otherwise return the stored value. -/
def getCellValue (σ : Store) (token : String) : JNum × String :=
  let cell := σ token
  if cell.error ≠ "" ∧ cell.error ≠ ErrorMessages.emptyFormula then
    (JNum.fin 0, cell.error)
  else if cell.formula.length = 0 then
    (JNum.fin 0, ErrorMessages.invalidCell)
  else
    (cell.value, "")

/-- The per-parse mutable state of the evaluator: `_currentTokenIndex`,
`_errorOccurred`, `_errorMessage`. -/
structure ParseState where
  currentTokenIndex : ℕ
  errorOccurred : Bool
  errorMessage : String
deriving DecidableEq

/-- `currentToken`: the token at the cursor, `none` standing for the
out-of-bounds `undefined`. -/
def currentToken (f : List String) (s : ParseState) : Option String :=
  f.get? s.currentTokenIndex

/-- `nextToken`: advance the cursor. -/
def nextToken (s : ParseState) : ParseState :=
  { s with currentTokenIndex := s.currentTokenIndex + 1 }

/-- Which recursive-descent routine is executing: the body of
`evaluateExpression` / `evaluateTerm` before their loop, the loops
themselves (carrying the accumulated value), or `evaluateFactor`. -/
inductive Mode where
  | expr
  | exprLoop (v : JNum)
  | term
  | termLoop (v : JNum)
  | factor

/-- One fueled interpreter for the five mutually recursive pieces of the
source's parser (methods `evaluateExpression`, `evaluateTerm`,
`evaluateFactor` and the two `while` loops inside the first two).  Each
recursive call spends one unit of fuel, so the function is structurally
recursive and kernel-computable; `run_stable` below shows
`3 * formula.length + 3` fuel is always enough, so the fuel is not
observable. -/
def run (f : List String) (σ : Store) : ℕ → Mode → ParseState → JNum × ParseState
  | 0, _, s => (JNum.fin 0, s)
  | n+1, Mode.expr, s =>
      let p := run f σ n Mode.term s
      run f σ n (Mode.exprLoop p.1) p.2
  | n+1, Mode.exprLoop v, s =>
      if currentToken f s = some ("+") then
        let p := run f σ n Mode.term (nextToken s)
        run f σ n (Mode.exprLoop (v.add p.1)) p.2
      else if currentToken f s = some ("-") then
        let p := run f σ n Mode.term (nextToken s)
        run f σ n (Mode.exprLoop (v.sub p.1)) p.2
      else (v, s)
  | n+1, Mode.term, s =>
      let p := run f σ n Mode.factor s
      run f σ n (Mode.termLoop p.1) p.2
  | n+1, Mode.termLoop v, s =>
      if currentToken f s = some ("*") then
        let p := run f σ n Mode.factor (nextToken s)
        run f σ n (Mode.termLoop (v.mul p.1)) p.2
      else if currentToken f s = some ("/") then
        let p := run f σ n Mode.factor (nextToken s)
        if p.1 = JNum.fin 0 then
          (JNum.posInf, { p.2 with errorOccurred := true, errorMessage := ErrorMessages.divideByZero })
        else
          run f σ n (Mode.termLoop (v.div p.1)) p.2
      else (v, s)
  | n+1, Mode.factor, s =>
      match currentToken f s with
      | none => (JNum.fin 0, { s with errorOccurred := true, errorMessage := ErrorMessages.invalidFormula })
      | some t =>
          if isNumber t then
            (jsNumber t, nextToken s)
          else if isCellReference t then
            let p := getCellValue σ t
            if p.2 ≠ "" then (p.1, nextToken { s with errorOccurred := true, errorMessage := p.2 })
            else (p.1, nextToken s)
          else if t = "(" then
            let p := run f σ n Mode.expr (nextToken s)
            if currentToken f p.2 = some (")") then (p.1, nextToken p.2)
            else (p.1, { p.2 with errorOccurred := true, errorMessage := ErrorMessages.invalidFormula })
          else
            (JNum.fin 0, { s with errorOccurred := true, errorMessage := ErrorMessages.invalidFormula })

/-- `evaluateExpression`, at a given fuel. -/
def evaluateExpression (f : List String) (σ : Store) (fuel : ℕ) (s : ParseState) : JNum × ParseState :=
  run f σ fuel Mode.expr s

/-- `evaluateTerm`, at a given fuel. -/
def evaluateTerm (f : List String) (σ : Store) (fuel : ℕ) (s : ParseState) : JNum × ParseState :=
  run f σ fuel Mode.term s

/-- `evaluateFactor`, at a given fuel. -/
def evaluateFactor (f : List String) (σ : Store) (fuel : ℕ) (s : ParseState) : JNum × ParseState :=
  run f σ fuel Mode.factor s

/-- The instance fields of class `FormulaEvaluator` (minus the store handle,
which is a parameter here). -/
structure FormulaEvaluator where
  currentTokenIndex : ℕ
  errorOccurred : Bool
  errorMessage : String
  currentFormula : List String
  lastResult : JNum
  result : JNum
deriving DecidableEq

/-- A freshly constructed evaluator: the field initializers of the class. -/
def FormulaEvaluator.initial : FormulaEvaluator :=
  ⟨0, false, "", [], JNum.fin 0, JNum.fin 0⟩

/-- Fuel that `run_stable` proves sufficient for a whole formula. -/
def fuelBound (formula : List String) : ℕ := 3 * formula.length + 3

/-- The body of `evaluate`, at a given fuel: reset the per-call fields,
short-circuit the empty formula, parse a top-level expression, store the
result, and flag leftover tokens when no error was already recorded.  The
first component is `evaluate`'s return value; the second is the instance
afterwards (whose `result` / `errorMessage` fields the public `result` /
`error` accessors expose). -/
def evaluateFuel (σ : Store) (inst : FormulaEvaluator) (formula : List String) (fuel : ℕ) :
    JNum × FormulaEvaluator :=
  let inst1 := { inst with currentFormula := formula, currentTokenIndex := 0,
                           errorOccurred := false, errorMessage := "" }
  if formula.length = 0 then
    (JNum.fin 0, { inst1 with errorMessage := ErrorMessages.emptyFormula })
  else
    let p := run formula σ fuel Mode.expr ⟨0, false, ""⟩
    let inst2 := { inst1 with currentTokenIndex := p.2.currentTokenIndex,
                              errorOccurred := p.2.errorOccurred,
                              errorMessage := p.2.errorMessage,
                              result := p.1, lastResult := p.1 }
    if p.2.currentTokenIndex ≠ formula.length ∧ p.2.errorOccurred = false then
      (JNum.fin 0, { inst2 with errorMessage := ErrorMessages.invalidFormula })
    else
      (p.1, inst2)

/-- `evaluate`, at the canonical (sufficient) fuel. -/
def evaluate (σ : Store) (inst : FormulaEvaluator) (formula : List String) :
    JNum × FormulaEvaluator :=
  evaluateFuel σ inst formula (fuelBound formula)

/-- The `(result, error)` pair the spec's contract talks about: the values of
the public `result` and `error` accessors after `evaluate` on a fresh
evaluator, as in the spec's own test table (section 8). -/
def evalPair (σ : Store) (formula : List String) : JNum × String :=
  ((evaluate σ FormulaEvaluator.initial formula).2.result,
   (evaluate σ FormulaEvaluator.initial formula).2.errorMessage)

/-- A store in which every cell is untouched: empty formula, value 0, no
error. -/
def emptyStore : Store := fun _ => ⟨[], JNum.fin 0, ""⟩

/-- A store whose cells `A1` and `B1` carry distinct stored errors (both
non-empty and different from the empty-formula marker). -/
def twoErrStore : Store := fun l =>
  if l = "A1" then ⟨["1"], JNum.fin 1, "first error"⟩
  else if l = "B1" then ⟨["1"], JNum.fin 1, "second error"⟩
  else ⟨[], JNum.fin 0, ""⟩

/-- A store whose cell `A1` holds the already-computed value 5. -/
def valueStore : Store := fun l =>
  if l = "A1" then ⟨["5"], JNum.fin 5, ""⟩
  else ⟨[], JNum.fin 0, ""⟩

/-- A token at the cursor exists only while the cursor is inside the
formula. -/
theorem currentToken_lt (f : List String) (s : ParseState) (t : String)
    (h : currentToken f s = some t) : s.currentTokenIndex < f.length := by
  unfold currentToken at h
  exact (List.get?_eq_some.mp h).1

/-- Advancing the cursor increments the token index. -/
theorem nextToken_idx (s : ParseState) :
    (nextToken s).currentTokenIndex = s.currentTokenIndex + 1 := rfl

/-- The cursor never moves backwards: every parser routine returns a state
whose token index is at least the input index. -/
theorem run_progress (f : List String) (σ : Store) :
    ∀ (n : ℕ) (mode : Mode) (s : ParseState),
      s.currentTokenIndex ≤ (run f σ n mode s).2.currentTokenIndex := by
  intro n
  induction n with
  | zero => intro mode s; simp [run]
  | succ n ih =>
    intro mode s
    cases mode with
    | expr =>
      simp only [run]
      exact le_trans (ih Mode.term s) (ih (Mode.exprLoop _) _)
    | exprLoop v =>
      simp only [run]
      split
      · have h1 := ih Mode.term (nextToken s)
        have h2 := ih (Mode.exprLoop (v.add (run f σ n Mode.term (nextToken s)).1))
          (run f σ n Mode.term (nextToken s)).2
        simp only [nextToken_idx] at h1
        omega
      split
      · have h1 := ih Mode.term (nextToken s)
        have h2 := ih (Mode.exprLoop (v.sub (run f σ n Mode.term (nextToken s)).1))
          (run f σ n Mode.term (nextToken s)).2
        simp only [nextToken_idx] at h1
        omega
      · exact le_refl _
    | term =>
      simp only [run]
      exact le_trans (ih Mode.factor s) (ih (Mode.termLoop _) _)
    | termLoop v =>
      simp only [run]
      split
      · have h1 := ih Mode.factor (nextToken s)
        have h2 := ih (Mode.termLoop (v.mul (run f σ n Mode.factor (nextToken s)).1))
          (run f σ n Mode.factor (nextToken s)).2
        simp only [nextToken_idx] at h1
        omega
      split
      · have h1 := ih Mode.factor (nextToken s)
        simp only [nextToken_idx] at h1
        split
        · simp only
          omega
        · have h2 := ih (Mode.termLoop (v.div (run f σ n Mode.factor (nextToken s)).1))
            (run f σ n Mode.factor (nextToken s)).2
          omega
      · exact le_refl _
    | factor =>
      cases hct : currentToken f s with
      | none => simp [run, hct]
      | some t =>
        simp only [run, hct]
        split
        · simp [nextToken_idx]
        split
        · split <;> simp [nextToken_idx]
        split
        · have h1 := ih Mode.expr (nextToken s)
          simp only [nextToken_idx] at h1
          split
          · simp only [nextToken_idx]
            omega
          · simp only
            omega
        · exact le_refl _

/-- One-step unfolding of `run` in expression mode. -/
theorem run_expr_step (f : List String) (σ : Store) (n : ℕ) (s : ParseState) :
    run f σ (n+1) Mode.expr s =
      run f σ n (Mode.exprLoop (run f σ n Mode.term s).1) (run f σ n Mode.term s).2 := rfl

/-- One-step unfolding of `run` in expression-loop mode. -/
theorem run_exprLoop_step (f : List String) (σ : Store) (n : ℕ) (v : JNum) (s : ParseState) :
    run f σ (n+1) (Mode.exprLoop v) s =
      (if currentToken f s = some ("+") then
        run f σ n (Mode.exprLoop (v.add (run f σ n Mode.term (nextToken s)).1))
          (run f σ n Mode.term (nextToken s)).2
      else if currentToken f s = some ("-") then
        run f σ n (Mode.exprLoop (v.sub (run f σ n Mode.term (nextToken s)).1))
          (run f σ n Mode.term (nextToken s)).2
      else (v, s)) := rfl

/-- One-step unfolding of `run` in term mode. -/
theorem run_term_step (f : List String) (σ : Store) (n : ℕ) (s : ParseState) :
    run f σ (n+1) Mode.term s =
      run f σ n (Mode.termLoop (run f σ n Mode.factor s).1) (run f σ n Mode.factor s).2 := rfl

/-- One-step unfolding of `run` in term-loop mode. -/
theorem run_termLoop_step (f : List String) (σ : Store) (n : ℕ) (v : JNum) (s : ParseState) :
    run f σ (n+1) (Mode.termLoop v) s =
      (if currentToken f s = some ("*") then
        run f σ n (Mode.termLoop (v.mul (run f σ n Mode.factor (nextToken s)).1))
          (run f σ n Mode.factor (nextToken s)).2
      else if currentToken f s = some ("/") then
        (if (run f σ n Mode.factor (nextToken s)).1 = JNum.fin 0 then
          (JNum.posInf, { (run f σ n Mode.factor (nextToken s)).2 with
                            errorOccurred := true,
                            errorMessage := ErrorMessages.divideByZero })
        else
          run f σ n (Mode.termLoop (v.div (run f σ n Mode.factor (nextToken s)).1))
            (run f σ n Mode.factor (nextToken s)).2)
      else (v, s)) := rfl

/-- One-step unfolding of `run` in factor mode. -/
theorem run_factor_step (f : List String) (σ : Store) (n : ℕ) (s : ParseState) :
    run f σ (n+1) Mode.factor s =
      (match currentToken f s with
      | none => (JNum.fin 0, { s with errorOccurred := true,
                                      errorMessage := ErrorMessages.invalidFormula })
      | some t =>
          if isNumber t then
            (jsNumber t, nextToken s)
          else if isCellReference t then
            (if (getCellValue σ t).2 ≠ "" then
              ((getCellValue σ t).1, nextToken { s with errorOccurred := true,
                                                        errorMessage := (getCellValue σ t).2 })
            else ((getCellValue σ t).1, nextToken s))
          else if t = "(" then
            (if currentToken f (run f σ n Mode.expr (nextToken s)).2 = some (")") then
              ((run f σ n Mode.expr (nextToken s)).1, nextToken (run f σ n Mode.expr (nextToken s)).2)
            else
              ((run f σ n Mode.expr (nextToken s)).1,
                { (run f σ n Mode.expr (nextToken s)).2 with
                    errorOccurred := true, errorMessage := ErrorMessages.invalidFormula }))
          else
            (JNum.fin 0, { s with errorOccurred := true,
                                  errorMessage := ErrorMessages.invalidFormula })) := rfl

/-- Fuel needed by each routine on top of three units per unconsumed
token. -/
def modeCost : Mode → ℕ
  | .expr => 3
  | .exprLoop _ => 2
  | .term => 2
  | .termLoop _ => 1
  | .factor => 1

/-- Cost of expression mode. -/
theorem modeCost_expr : modeCost Mode.expr = 3 := rfl

/-- Cost of expression-loop mode. -/
theorem modeCost_exprLoop (v : JNum) : modeCost (Mode.exprLoop v) = 2 := rfl

/-- Cost of term mode. -/
theorem modeCost_term : modeCost Mode.term = 2 := rfl

/-- Cost of term-loop mode. -/
theorem modeCost_termLoop (v : JNum) : modeCost (Mode.termLoop v) = 1 := rfl

/-- Cost of factor mode. -/
theorem modeCost_factor : modeCost Mode.factor = 1 := rfl

/-- One more unit of fuel changes nothing once the fuel covers three units
per remaining token plus the routine's own cost: the parser consumes a token
before every loop iteration and every parenthesis descent, so it never runs
out. -/
theorem run_succ_stable (f : List String) (σ : Store) :
    ∀ (n : ℕ) (mode : Mode) (s : ParseState),
      3 * (f.length - s.currentTokenIndex) + modeCost mode ≤ n →
      run f σ (n+1) mode s = run f σ n mode s := by
  intro n
  induction n with
  | zero =>
    intro mode s h
    cases mode <;>
      simp only [modeCost_expr, modeCost_exprLoop, modeCost_term, modeCost_termLoop,
        modeCost_factor] at h <;>
      omega
  | succ n ih =>
    intro mode s h
    cases mode with
    | expr =>
      simp only [modeCost_expr] at h
      rw [run_expr_step f σ (n+1) s, run_expr_step f σ n s]
      have hp := run_progress f σ n Mode.term s
      rw [ih Mode.term s (by simp only [modeCost_term]; omega)]
      rw [ih (Mode.exprLoop (run f σ n Mode.term s).1) (run f σ n Mode.term s).2
        (by simp only [modeCost_exprLoop]; omega)]
    | exprLoop v =>
      simp only [modeCost_exprLoop] at h
      rw [run_exprLoop_step f σ (n+1) v s, run_exprLoop_step f σ n v s]
      have hp := run_progress f σ n Mode.term (nextToken s)
      simp only [nextToken_idx] at hp
      by_cases hc1 : currentToken f s = some ("+")
      · have hlt := currentToken_lt f s _ hc1
        simp only [if_pos hc1]
        rw [ih Mode.term (nextToken s) (by simp only [modeCost_term, nextToken_idx]; omega)]
        rw [ih (Mode.exprLoop (v.add (run f σ n Mode.term (nextToken s)).1))
          (run f σ n Mode.term (nextToken s)).2 (by simp only [modeCost_exprLoop]; omega)]
      simp only [if_neg hc1]
      by_cases hc2 : currentToken f s = some ("-")
      · have hlt := currentToken_lt f s _ hc2
        simp only [if_pos hc2]
        rw [ih Mode.term (nextToken s) (by simp only [modeCost_term, nextToken_idx]; omega)]
        rw [ih (Mode.exprLoop (v.sub (run f σ n Mode.term (nextToken s)).1))
          (run f σ n Mode.term (nextToken s)).2 (by simp only [modeCost_exprLoop]; omega)]
      · simp only [if_neg hc2]
    | term =>
      simp only [modeCost_term] at h
      rw [run_term_step f σ (n+1) s, run_term_step f σ n s]
      have hp := run_progress f σ n Mode.factor s
      rw [ih Mode.factor s (by simp only [modeCost_factor]; omega)]
      rw [ih (Mode.termLoop (run f σ n Mode.factor s).1) (run f σ n Mode.factor s).2
        (by simp only [modeCost_termLoop]; omega)]
    | termLoop v =>
      simp only [modeCost_termLoop] at h
      rw [run_termLoop_step f σ (n+1) v s, run_termLoop_step f σ n v s]
      have hp := run_progress f σ n Mode.factor (nextToken s)
      simp only [nextToken_idx] at hp
      by_cases hc1 : currentToken f s = some ("*")
      · have hlt := currentToken_lt f s _ hc1
        simp only [if_pos hc1]
        rw [ih Mode.factor (nextToken s) (by simp only [modeCost_factor, nextToken_idx]; omega)]
        rw [ih (Mode.termLoop (v.mul (run f σ n Mode.factor (nextToken s)).1))
          (run f σ n Mode.factor (nextToken s)).2 (by simp only [modeCost_termLoop]; omega)]
      simp only [if_neg hc1]
      by_cases hc2 : currentToken f s = some ("/")
      · have hlt := currentToken_lt f s _ hc2
        simp only [if_pos hc2]
        rw [ih Mode.factor (nextToken s) (by simp only [modeCost_factor, nextToken_idx]; omega)]
        by_cases hz : (run f σ n Mode.factor (nextToken s)).1 = JNum.fin 0
        · simp only [if_pos hz]
        · simp only [if_neg hz]
          rw [ih (Mode.termLoop (v.div (run f σ n Mode.factor (nextToken s)).1))
            (run f σ n Mode.factor (nextToken s)).2 (by simp only [modeCost_termLoop]; omega)]
      · simp only [if_neg hc2]
    | factor =>
      simp only [modeCost_factor] at h
      rw [run_factor_step f σ (n+1) s, run_factor_step f σ n s]
      cases hct : currentToken f s with
      | none => simp only [hct]
      | some t =>
        have hlt := currentToken_lt f s _ hct
        simp only [hct]
        by_cases hn : isNumber t
        · simp only [if_pos hn]
        simp only [if_neg hn]
        by_cases hcr : isCellReference t
        · simp only [if_pos hcr]
        simp only [if_neg hcr]
        by_cases hpar : t = "("
        · simp only [if_pos hpar]
          rw [ih Mode.expr (nextToken s) (by simp only [modeCost_expr, nextToken_idx]; omega)]
        · simp only [if_neg hpar]

/-- Any two sufficient fuels give the same outcome. -/
theorem run_stable (f : List String) (σ : Store) (n m : ℕ) (mode : Mode) (s : ParseState)
    (hn : 3 * (f.length - s.currentTokenIndex) + modeCost mode ≤ n) (hnm : n ≤ m) :
    run f σ m mode s = run f σ n mode s := by
  induction m, hnm using Nat.le_induction with
  | base => rfl
  | succ m hm ihm =>
    rw [run_succ_stable f σ m mode s (le_trans hn hm)]
    exact ihm

/-- `evaluate` is fuel-independent above the canonical bound
`3 * length + 3`: evaluation of any formula over any store finishes within
a number of parser steps linear in the token count. -/
theorem evaluateFuel_stable (σ : Store) (inst : FormulaEvaluator) (formula : List String)
    (fuel : ℕ) (h : fuelBound formula ≤ fuel) :
    evaluateFuel σ inst formula fuel = evaluateFuel σ inst formula (fuelBound formula) := by
  unfold evaluateFuel
  by_cases he : formula.length = 0
  · simp only [he, if_pos]
  · simp only [if_neg he]
    rw [run_stable formula σ (fuelBound formula) fuel Mode.expr ⟨0, false, ""⟩
      (by simp [fuelBound, modeCost]) h]

/-- Each iteration of the expression loop consumes at least its operator
token: the cursor strictly advances. -/
theorem exprLoop_advances (f : List String) (σ : Store) (n : ℕ) (v : JNum) (s : ParseState)
    (h : currentToken f s = some ("+") ∨ currentToken f s = some ("-")) :
    s.currentTokenIndex + 1 ≤ (run f σ (n+1) (Mode.exprLoop v) s).2.currentTokenIndex := by
  have hterm := run_progress f σ n Mode.term (nextToken s)
  simp only [nextToken_idx] at hterm
  rw [run_exprLoop_step]
  cases h with
  | inl hc =>
    simp only [if_pos hc]
    have h2 := run_progress f σ n (Mode.exprLoop (v.add (run f σ n Mode.term (nextToken s)).1))
      (run f σ n Mode.term (nextToken s)).2
    omega
  | inr hc =>
    by_cases hc1 : currentToken f s = some ("+")
    · simp only [if_pos hc1]
      have h2 := run_progress f σ n (Mode.exprLoop (v.add (run f σ n Mode.term (nextToken s)).1))
        (run f σ n Mode.term (nextToken s)).2
      omega
    · simp only [if_neg hc1, if_pos hc]
      have h2 := run_progress f σ n (Mode.exprLoop (v.sub (run f σ n Mode.term (nextToken s)).1))
        (run f σ n Mode.term (nextToken s)).2
      omega

/-- Each iteration of the term loop consumes at least its operator token:
the cursor strictly advances (also on the division-by-zero exit). -/
theorem termLoop_advances (f : List String) (σ : Store) (n : ℕ) (v : JNum) (s : ParseState)
    (h : currentToken f s = some ("*") ∨ currentToken f s = some ("/")) :
    s.currentTokenIndex + 1 ≤ (run f σ (n+1) (Mode.termLoop v) s).2.currentTokenIndex := by
  have hfac := run_progress f σ n Mode.factor (nextToken s)
  simp only [nextToken_idx] at hfac
  rw [run_termLoop_step]
  cases h with
  | inl hc =>
    simp only [if_pos hc]
    have h2 := run_progress f σ n (Mode.termLoop (v.mul (run f σ n Mode.factor (nextToken s)).1))
      (run f σ n Mode.factor (nextToken s)).2
    omega
  | inr hc =>
    by_cases hc1 : currentToken f s = some ("*")
    · simp only [if_pos hc1]
      have h2 := run_progress f σ n (Mode.termLoop (v.mul (run f σ n Mode.factor (nextToken s)).1))
        (run f σ n Mode.factor (nextToken s)).2
      omega
    · simp only [if_neg hc1, if_pos hc]
      by_cases hz : (run f σ n Mode.factor (nextToken s)).1 = JNum.fin 0
      · simp only [if_pos hz]
        omega
      · simp only [if_neg hz]
        have h2 := run_progress f σ n (Mode.termLoop (v.div (run f σ n Mode.factor (nextToken s)).1))
          (run f σ n Mode.factor (nextToken s)).2
        omega

/-- For a non-empty formula, `evaluate` overwrites every instance field, so
the outcome does not depend on the instance it starts from. -/
theorem evaluate_independent (σ : Store) (inst1 inst2 : FormulaEvaluator)
    (formula : List String) (h : formula ≠ []) :
    evaluate σ inst1 formula = evaluate σ inst2 formula := by
  cases formula with
  | nil => exact absurd rfl h
  | cons a l => rfl

/-- Evaluating the same formula again from the instance the first call left
behind reproduces the first call exactly. -/
theorem evaluate_idempotent (σ : Store) (inst : FormulaEvaluator) (formula : List String) :
    evaluate σ (evaluate σ inst formula).2 formula = evaluate σ inst formula := by
  cases formula with
  | nil => rfl
  | cons a l => exact evaluate_independent σ _ inst (a :: l) (List.cons_ne_nil a l)

/-- C1: the evaluator implements operator precedence and left-to-right
associativity over the three-level grammar expression, term, factor: for
any store, `evaluate` on the tokens 2 + 3 * 4 yields result 14 with empty
error, and on ( 2 + 3 ) * 4 yields 20 with empty error — multiplication
binds tighter than addition, and a parenthesized sub-expression is
evaluated before the enclosing term. -/
theorem c1_precedence_associativity : ∀ σ : Store,
    evalPair σ ["2", "+", "3", "*", "4"] = (JNum.fin 14, "") ∧
    evalPair σ ["(", "2", "+", "3", ")", "*", "4"] = (JNum.fin 20, "") :=
  fun _ => ⟨rfl, rfl⟩

/-- C2: whenever a division operator's right-hand factor evaluates to
exactly 0, the term loop sets the error to `divideByZero`, sets the error
flag, returns immediately (the state is exactly the post-divisor state: no
further factor of the term is consumed or evaluated) and propagates
positive infinity as the term's value; in particular `evaluate` on
5 / 0 yields `(Infinity, divideByZero)` over any store. -/
theorem c2_divide_by_zero_short_circuit :
    (∀ (f : List String) (σ : Store) (n : ℕ) (v : JNum) (s : ParseState),
        currentToken f s = some ("/") →
        (run f σ n Mode.factor (nextToken s)).1 = JNum.fin 0 →
        run f σ (n+1) (Mode.termLoop v) s =
          (JNum.posInf, { (run f σ n Mode.factor (nextToken s)).2 with
                            errorOccurred := true,
                            errorMessage := ErrorMessages.divideByZero })) ∧
    (∀ σ : Store, evalPair σ ["5", "/", "0"] = (JNum.posInf, ErrorMessages.divideByZero)) := by
  constructor
  · intro f σ n v s hc hz
    have hne : ¬ currentToken f s = some ("*") := by rw [hc]; decide
    rw [run_termLoop_step, if_neg hne, if_pos hc, if_pos hz]
  · intro σ
    rfl

/-- Witness for C2 at the concrete division 5 / 0. -/
theorem c2_divide_by_zero_short_circuit_witness :
    currentToken ["5", "/", "0"] ⟨1, false, ""⟩ = some ("/") ∧
    (run ["5", "/", "0"] emptyStore 5 Mode.factor (nextToken ⟨1, false, ""⟩)).1 = JNum.fin 0 ∧
    run ["5", "/", "0"] emptyStore 6 (Mode.termLoop (JNum.fin 5)) ⟨1, false, ""⟩ =
      (JNum.posInf, { (run ["5", "/", "0"] emptyStore 5 Mode.factor (nextToken ⟨1, false, ""⟩)).2 with
                        errorOccurred := true,
                        errorMessage := ErrorMessages.divideByZero }) :=
  ⟨by decide, by decide,
   c2_divide_by_zero_short_circuit.1 ["5", "/", "0"] emptyStore 5 (JNum.fin 5) ⟨1, false, ""⟩
     (by decide) (by decide)⟩

/-- C3: a cell-reference factor dereferences with this exact priority: a
non-empty stored error that is not the empty-formula marker is propagated
verbatim with value 0 (and the error flag set); otherwise an empty stored
formula yields value 0 with `invalidCell`; otherwise the stored value is
returned with no change to the error state.  The cursor advances past the
label in every case. -/
theorem c3_cell_dereference_priority :
    ∀ (f : List String) (σ : Store) (fuel : ℕ) (s : ParseState) (t : String),
      currentToken f s = some t →
      isNumber t = false →
      isCellReference t = true →
      ((((σ t).error ≠ "" ∧ (σ t).error ≠ ErrorMessages.emptyFormula) →
          evaluateFactor f σ (fuel+1) s =
            (JNum.fin 0, ⟨s.currentTokenIndex + 1, true, (σ t).error⟩)) ∧
       (((σ t).error = "" ∨ (σ t).error = ErrorMessages.emptyFormula) →
          (σ t).formula.length = 0 →
          evaluateFactor f σ (fuel+1) s =
            (JNum.fin 0, ⟨s.currentTokenIndex + 1, true, ErrorMessages.invalidCell⟩)) ∧
       (((σ t).error = "" ∨ (σ t).error = ErrorMessages.emptyFormula) →
          (σ t).formula.length ≠ 0 →
          evaluateFactor f σ (fuel+1) s =
            ((σ t).value, ⟨s.currentTokenIndex + 1, s.errorOccurred, s.errorMessage⟩))) := by
  intro f σ fuel s t hct hnum hcell
  have hnum' : ¬ isNumber t = true := by rw [hnum]; decide
  unfold evaluateFactor
  rw [run_factor_step]
  simp only [hct]
  rw [if_neg hnum', if_pos hcell]
  simp only [getCellValue]
  refine ⟨?_, ?_, ?_⟩
  · intro herr
    rw [if_pos herr]
    rw [if_pos (show (JNum.fin 0, (σ t).error).2 ≠ "" from herr.1)]
    rfl
  · intro herr hf
    have hne : ¬ ((σ t).error ≠ "" ∧ (σ t).error ≠ ErrorMessages.emptyFormula) := by
      rcases herr with h | h <;> simp [h]
    rw [if_neg hne, if_pos hf]
    rw [if_pos (show (JNum.fin 0, ErrorMessages.invalidCell).2 ≠ "" by decide)]
    rfl
  · intro herr hf
    have hne : ¬ ((σ t).error ≠ "" ∧ (σ t).error ≠ ErrorMessages.emptyFormula) := by
      rcases herr with h | h <;> simp [h]
    rw [if_neg hne, if_neg hf]
    rw [if_neg (show ¬ (((σ t).value, "") : JNum × String).2 ≠ "" by simp)]
    rfl

/-- Witness for C3: one concrete instance of each of the three dereference
priorities. -/
theorem c3_cell_dereference_priority_witness :
    (evaluateFactor ["A1"] twoErrStore 1 ⟨0, false, ""⟩ =
      (JNum.fin 0, ⟨1, true, "first error"⟩)) ∧
    (evaluateFactor ["B1"] emptyStore 1 ⟨0, false, ""⟩ =
      (JNum.fin 0, ⟨1, true, ErrorMessages.invalidCell⟩)) ∧
    (evaluateFactor ["A1"] valueStore 1 ⟨0, false, ""⟩ =
      (JNum.fin 5, ⟨1, false, ""⟩)) :=
  ⟨(c3_cell_dereference_priority ["A1"] twoErrStore 0 ⟨0, false, ""⟩ ("A1")
      (by decide) (by decide) (by decide)).1 (by decide),
   (c3_cell_dereference_priority ["B1"] emptyStore 0 ⟨0, false, ""⟩ ("B1")
      (by decide) (by decide) (by decide)).2.1 (by decide) (by decide),
   (c3_cell_dereference_priority ["A1"] valueStore 0 ⟨0, false, ""⟩ ("A1")
      (by decide) (by decide) (by decide)).2.2 (by decide) (by decide)⟩

/-- C4 counterexample: the unmatched-parenthesis evaluation finishes with a
non-empty error that is not `divideByZero`, yet its reported numeric result
is 3 — neither 0 nor positive infinity — refuting the claim that every
erroring evaluation reports 0 unless division by zero overrides it. -/
theorem c4_counterexample :
    (evalPair emptyStore ["(", "1", "+", "2"]).2 ≠ "" ∧
    (evalPair emptyStore ["(", "1", "+", "2"]).2 ≠ ErrorMessages.divideByZero ∧
    (evalPair emptyStore ["(", "1", "+", "2"]).1 ≠ JNum.fin 0 ∧
    (evalPair emptyStore ["(", "1", "+", "2"]).1 ≠ JNum.posInf := by decide

/-- C4 amended: an erroring evaluation reports the value the parse had
already computed, not necessarily 0: the empty formula reports 0, a
division by zero reports positive infinity, but other error paths keep the
partial value (3 for the unmatched parenthesis).  The raw numeric return of
`evaluate` is 0 on the trailing-token error path even though the `result`
accessor — the spec's reported result — retains the computed value. -/
theorem c4_amended : ∀ σ : Store,
    evalPair σ [] = (JNum.fin 0, ErrorMessages.emptyFormula) ∧
    evalPair σ ["5", "/", "0"] = (JNum.posInf, ErrorMessages.divideByZero) ∧
    evalPair σ ["(", "1", "+", "2"] = (JNum.fin 3, ErrorMessages.invalidFormula) ∧
    (evaluate σ FormulaEvaluator.initial ["1", "+", "2", "3"]).1 = JNum.fin 0 ∧
    (evaluate σ FormulaEvaluator.initial ["1", "+", "2", "3"]).2.result = JNum.fin 3 :=
  fun _ => ⟨rfl, rfl, rfl, rfl, rfl⟩

/-- C5 counterexample: a formula referencing two cells that carry distinct
stored errors (both non-empty, neither the empty-formula marker) reports
the second cell's error, not the first: the second error overwrote the
first even though the error flag was already set. -/
theorem c5_counterexample :
    (twoErrStore ("A1")).error = "first error" ∧
    (twoErrStore ("B1")).error = "second error" ∧
    "first error" ≠ "second error" ∧
    (twoErrStore ("A1")).error ≠ "" ∧
    (twoErrStore ("A1")).error ≠ ErrorMessages.emptyFormula ∧
    (twoErrStore ("B1")).error ≠ "" ∧
    (twoErrStore ("B1")).error ≠ ErrorMessages.emptyFormula ∧
    evalPair twoErrStore ["A1", "+", "B1"] = (JNum.fin 0, "second error") := by decide

/-- C5 amended: once the error flag is set it is never cleared, but a later
error site still overwrites the recorded message: a cell-reference factor
whose lookup produces an error installs that error regardless of any
previously recorded error, so the error reported at the end of an
evaluation is the last one encountered, not the first. -/
theorem c5_amended :
    ∀ (f : List String) (σ : Store) (fuel : ℕ) (s : ParseState) (t : String),
      currentToken f s = some t →
      isNumber t = false →
      isCellReference t = true →
      (getCellValue σ t).2 ≠ "" →
      (evaluateFactor f σ (fuel+1) s).2.errorMessage = (getCellValue σ t).2 ∧
      (evaluateFactor f σ (fuel+1) s).2.errorOccurred = true := by
  intro f σ fuel s t hct hnum hcell herr
  have hnum' : ¬ isNumber t = true := by rw [hnum]; decide
  unfold evaluateFactor
  rw [run_factor_step]
  simp only [hct]
  rw [if_neg hnum', if_pos hcell, if_pos herr]
  exact ⟨rfl, rfl⟩

/-- Witness for C5: a pending `divideByZero` error is replaced by the
referenced cell's stored error. -/
theorem c5_amended_witness :
    (getCellValue twoErrStore ("A1")).2 ≠ "" ∧
    (evaluateFactor ["A1"] twoErrStore 1 ⟨0, true, ErrorMessages.divideByZero⟩).2.errorMessage =
      (getCellValue twoErrStore ("A1")).2 ∧
    (evaluateFactor ["A1"] twoErrStore 1 ⟨0, true, ErrorMessages.divideByZero⟩).2.errorOccurred =
      true :=
  ⟨by decide,
   (c5_amended ["A1"] twoErrStore 0 ⟨0, true, ErrorMessages.divideByZero⟩ ("A1")
      (by decide) (by decide) (by decide) (by decide)).1,
   (c5_amended ["A1"] twoErrStore 0 ⟨0, true, ErrorMessages.divideByZero⟩ ("A1")
      (by decide) (by decide) (by decide) (by decide)).2⟩

/-- C6: on the tokens 1 + 2 3 the evaluation consumes the valid prefix
1 + 2 (the cursor stops at index 3), reports its value 3 as the result, and
flags the leftover token with `invalidFormula`. -/
theorem c6_trailing_garbage : ∀ σ : Store,
    (evaluate σ FormulaEvaluator.initial ["1", "+", "2", "3"]).2.result = JNum.fin 3 ∧
    (evaluate σ FormulaEvaluator.initial ["1", "+", "2", "3"]).2.errorMessage =
      ErrorMessages.invalidFormula ∧
    (evaluate σ FormulaEvaluator.initial ["1", "+", "2", "3"]).2.currentTokenIndex = 3 :=
  fun _ => ⟨rfl, rfl, rfl⟩

/-- C7: on the tokens ( 1 + 2 the missing closing parenthesis sets
`invalidFormula`, but the already-computed inner value 3 is still both the
reported result and the raw return value of `evaluate`. -/
theorem c7_unmatched_parenthesis : ∀ σ : Store,
    evalPair σ ["(", "1", "+", "2"] = (JNum.fin 3, ErrorMessages.invalidFormula) ∧
    (evaluate σ FormulaEvaluator.initial ["(", "1", "+", "2"]).1 = JNum.fin 3 :=
  fun _ => ⟨rfl, rfl⟩

/-- C8 counterexample: on the tokens 1 * * A1 (cell `A1` carrying a stored
error), the factor error at index 2 does not stop the enclosing term loop:
the loop runs further iterations, consumes through index 4 and lets the
cell lookup overwrite the recorded `invalidFormula` with the cell's stored
error — refuting the claim that the factor error case returns to a loop
that then stops. -/
theorem c8_counterexample :
    evalPair twoErrStore ["1", "*", "*", "A1"] = (JNum.fin 0, "first error") ∧
    "first error" ≠ ErrorMessages.invalidFormula ∧
    (evaluate twoErrStore FormulaEvaluator.initial ["1", "*", "*", "A1"]).2.currentTokenIndex =
      4 := by decide

/-- C8 amended: evaluation always terminates with a deterministic outcome in
a number of parser steps linear in the token count — any fuel of at least
`3 * length + 3` gives the same result — because the cursor never moves
backwards and every iteration of the expression and term loops strictly
advances it; the factor error case that does not advance the cursor returns
to a loop that either stops or consumes the operator token on its next
iteration. -/
theorem c8_amended :
    (∀ (σ : Store) (inst : FormulaEvaluator) (formula : List String) (fuel : ℕ),
        fuelBound formula ≤ fuel →
        evaluateFuel σ inst formula fuel = evaluate σ inst formula) ∧
    (∀ (f : List String) (σ : Store) (n : ℕ) (mode : Mode) (s : ParseState),
        s.currentTokenIndex ≤ (run f σ n mode s).2.currentTokenIndex) ∧
    (∀ (f : List String) (σ : Store) (n : ℕ) (v : JNum) (s : ParseState),
        currentToken f s = some ("+") ∨ currentToken f s = some ("-") →
        s.currentTokenIndex + 1 ≤ (run f σ (n+1) (Mode.exprLoop v) s).2.currentTokenIndex) ∧
    (∀ (f : List String) (σ : Store) (n : ℕ) (v : JNum) (s : ParseState),
        currentToken f s = some ("*") ∨ currentToken f s = some ("/") →
        s.currentTokenIndex + 1 ≤ (run f σ (n+1) (Mode.termLoop v) s).2.currentTokenIndex) :=
  ⟨fun σ inst formula fuel h => evaluateFuel_stable σ inst formula fuel h,
   fun f σ n mode s => run_progress f σ n mode s,
   exprLoop_advances, termLoop_advances⟩

/-- Witness for C8: surplus fuel does not change the outcome on a concrete
formula, and a concrete expression-loop iteration strictly advances the
cursor. -/
theorem c8_amended_witness :
    fuelBound ["1", "+", "2"] ≤ 50 ∧
    evaluateFuel emptyStore FormulaEvaluator.initial ["1", "+", "2"] 50 =
      evaluate emptyStore FormulaEvaluator.initial ["1", "+", "2"] ∧
    0 + 1 ≤ (run ["+"] emptyStore 3 (Mode.exprLoop (JNum.fin 1)) ⟨0, false, ""⟩).2.currentTokenIndex :=
  ⟨by decide,
   c8_amended.1 emptyStore FormulaEvaluator.initial ["1", "+", "2"] 50 (by decide),
   c8_amended.2.2.1 ["+"] emptyStore 2 (JNum.fin 1) ⟨0, false, ""⟩ (Or.inl (by decide))⟩

/-- C9 counterexample: `evaluate` on the empty formula returns early without
resetting the `_result` field, so the public `result` accessor afterwards
still shows the previous call's value: after evaluating 5 and then the
empty formula the accessor reads 5, while a fresh evaluator given the empty
formula reads 0 — the outcome of a call does not depend only on that call's
formula and store. -/
theorem c9_counterexample :
    (evaluate emptyStore (evaluate emptyStore FormulaEvaluator.initial ["5"]).2 []).2.result =
      JNum.fin 5 ∧
    (evaluate emptyStore FormulaEvaluator.initial []).2.result = JNum.fin 0 ∧
    JNum.fin 5 ≠ JNum.fin 0 := by decide

/-- C9 amended: the cursor, error flag and error message are reset at the
start of every call, and for a non-empty formula every observable outcome
(return value and all instance fields) depends only on that call's formula
and store; evaluating the same formula twice with an unchanged store always
yields identical outcomes.  Only the `result` accessor after an
empty-formula call leaks the previous call's value. -/
theorem c9_amended :
    (∀ (σ : Store) (inst1 inst2 : FormulaEvaluator) (formula : List String),
        formula ≠ [] → evaluate σ inst1 formula = evaluate σ inst2 formula) ∧
    (∀ (σ : Store) (inst : FormulaEvaluator) (formula : List String),
        evaluate σ (evaluate σ inst formula).2 formula = evaluate σ inst formula) :=
  ⟨evaluate_independent, evaluate_idempotent⟩

/-- Witness for C9: a thoroughly dirtied instance evaluates a non-empty
formula exactly as a fresh one does. -/
theorem c9_amended_witness :
    (["7"] : List String) ≠ [] ∧
    evaluate emptyStore ⟨4, true, "junk", ["x"], JNum.posInf, JNum.fin 9⟩ ["7"] =
      evaluate emptyStore FormulaEvaluator.initial ["7"] :=
  ⟨by decide,
   c9_amended.1 emptyStore ⟨4, true, "junk", ["x"], JNum.posInf, JNum.fin 9⟩
     FormulaEvaluator.initial ["7"] (by decide)⟩

/-- C10: the empty-string token is classified as a numeric literal — its
string-to-number conversion yields 0, not NaN — so the one-token formula
consisting of the empty string evaluates to 0 with no error instead of
being rejected as `invalidFormula`. -/
theorem c10_empty_string_token : ∀ σ : Store,
    isNumber ("") = true ∧
    jsNumber ("") = JNum.fin 0 ∧
    evalPair σ [""] = (JNum.fin 0, "") :=
  fun _ => ⟨rfl, rfl, rfl⟩
